import Mathlib

/-!
# Verification of the ZotWatch abstract-enrichment pipeline

Shallow embedding of the enrichment core of the ZotWatch repository:

* `src/zotwatch/infrastructure/enrichment/cache.py` (`MetadataCache`)
* `src/zotwatch/infrastructure/enrichment/browser_pool.py` (`BrowserPool`)
* `src/zotwatch/infrastructure/enrichment/llm_extractor.py` (`LLMAbstractExtractor`)
* `src/zotwatch/pipeline/enrich.py` (`AbstractEnricher`)
* `src/zotwatch/llm/kimi.py` (`KimiClient`)

External effects (SQLite, the network, the browser engine, the generative
model) are modelled as explicit state or oracle functions; the control flow
and data transformations of the Python code are translated statement by
statement.
-/

/-! ## String utilities

Executable fragments of the Python string operations the code uses.
All identifiers and markers handled by the code are ASCII, so the ASCII
fragment of `str.lower` (Lean's `String.toLower`) is faithful here. -/

/-- Python `s.lower()` (ASCII fragment), defined over the character list so
that it evaluates by kernel reduction. -/
def pyLower (s : String) : String :=
  ⟨s.data.map Char.toLower⟩

/-- `listHasPre p l` is true iff `p` is a prefix of `l` (Python `startswith`). -/
def listHasPre : List Char → List Char → Bool
  | [], _ => true
  | _ :: _, [] => false
  | a :: as, b :: bs => a == b && listHasPre as bs

/-- `listHasSub sub l` is true iff `sub` occurs contiguously inside `l`. -/
def listHasSub (sub : List Char) : List Char → Bool
  | [] => sub.isEmpty
  | c :: tail => listHasPre sub (c :: tail) || listHasSub sub tail

/-- Python `sub in s` (substring containment). -/
def strContains (s sub : String) : Bool :=
  listHasSub sub.toList s.toList

/-- Python `s.startswith(pre)`. -/
def strStarts (s pre : String) : Bool :=
  listHasPre pre.toList s.toList

/-- Byte-wise (code-point-wise) lexicographic `<` on character lists.
SQLite compares TEXT values with the BINARY collation (`memcmp`), which for
the ASCII strings involved here coincides with code-point order. -/
def charListLt : List Char → List Char → Bool
  | [], [] => false
  | [], _ :: _ => true
  | _ :: _, [] => false
  | a :: as, b :: bs =>
    if a.val < b.val then true
    else if b.val < a.val then false
    else charListLt as bs

/-- SQLite TEXT comparison `a < b` under the BINARY collation. -/
def textLt (a b : String) : Bool :=
  charListLt a.toList b.toList

/-! ## Timestamps

`MetadataCache.put` computes `expires_at` with
`(datetime.now() + timedelta(days=ttl_days)).isoformat()` and the read paths
compare the stored TEXT against `datetime('now')` inside SQLite.  Both sides
are therefore strings, produced by two different formatters; we model the
wall clock as a broken-down time and both formatters exactly.  (The model
uses one clock for both `datetime.now()` and SQLite's `datetime('now')`,
i.e. it assumes the process runs in the UTC timezone.) -/

structure PyDateTime where
  year : Nat
  month : Nat
  day : Nat
  hour : Nat
  minute : Nat
  second : Nat
  micro : Nat
deriving DecidableEq

/-- Zero-pad to two digits. -/
def pad2 (n : Nat) : String :=
  if n < 10 then "0" ++ toString n else toString n

/-- Zero-pad to four digits. -/
def pad4 (n : Nat) : String :=
  if n < 10 then "000" ++ toString n
  else if n < 100 then "00" ++ toString n
  else if n < 1000 then "0" ++ toString n
  else toString n

/-- Zero-pad to six digits (`datetime.isoformat` microseconds). -/
def pad6 (n : Nat) : String :=
  if n < 10 then "00000" ++ toString n
  else if n < 100 then "0000" ++ toString n
  else if n < 1000 then "000" ++ toString n
  else if n < 10000 then "00" ++ toString n
  else if n < 100000 then "0" ++ toString n
  else toString n

/-- Python `datetime.isoformat()`: `YYYY-MM-DDTHH:MM:SS[.ffffff]`, with the
fractional part omitted when `microsecond == 0`. -/
def isoFormat (t : PyDateTime) : String :=
  pad4 t.year ++ "-" ++ pad2 t.month ++ "-" ++ pad2 t.day ++ "T" ++
    pad2 t.hour ++ ":" ++ pad2 t.minute ++ ":" ++ pad2 t.second ++
    (if t.micro = 0 then "" else "." ++ pad6 t.micro)

/-- SQLite `datetime('now')`: `YYYY-MM-DD HH:MM:SS`. -/
def sqliteNowFormat (t : PyDateTime) : String :=
  pad4 t.year ++ "-" ++ pad2 t.month ++ "-" ++ pad2 t.day ++ " " ++
    pad2 t.hour ++ ":" ++ pad2 t.minute ++ ":" ++ pad2 t.second

def isLeapYear (y : Nat) : Bool :=
  (y % 4 == 0 && y % 100 != 0) || y % 400 == 0

def daysInMonth (y m : Nat) : Nat :=
  if m = 2 then (if isLeapYear y then 29 else 28)
  else if m = 4 ∨ m = 6 ∨ m = 9 ∨ m = 11 then 30
  else 31

/-- Advance a broken-down time by one calendar day (proleptic Gregorian),
the day component of Python `timedelta` arithmetic. -/
def nextDay (t : PyDateTime) : PyDateTime :=
  if t.day < daysInMonth t.year t.month then { t with day := t.day + 1 }
  else if t.month < 12 then { t with day := 1, month := t.month + 1 }
  else { t with day := 1, month := 1, year := t.year + 1 }

/-- `t + timedelta(days=n)`. -/
def addDays (t : PyDateTime) : Nat → PyDateTime
  | 0 => t
  | n + 1 => nextDay (addDays t n)

/-- Chronological strict order on broken-down times (what "the TTL has
elapsed" means for the actual instants, independent of any string format). -/
def dtLt (a b : PyDateTime) : Bool :=
  if a.year ≠ b.year then a.year < b.year
  else if a.month ≠ b.month then a.month < b.month
  else if a.day ≠ b.day then a.day < b.day
  else if a.hour ≠ b.hour then a.hour < b.hour
  else if a.minute ≠ b.minute then a.minute < b.minute
  else if a.second ≠ b.second then a.second < b.second
  else a.micro < b.micro

/-! ## MetadataCache (`infrastructure/enrichment/cache.py`)

The SQLite table `paper_metadata` is modelled as a list of rows with unique
`doi` primary keys; `INSERT OR REPLACE` replaces the row with the same key.
`created_at` is never read by any query, so it is omitted from the row.
`authors_json` is stored but never read either; the row keeps the author
list itself rather than its JSON rendering. -/

structure MetaRow where
  doi : String
  abstract : Option String
  title : Option String
  authorsJson : Option (List String)
  citationCount : Option Int
  source : String
  expiresAt : Option String
deriving DecidableEq

/-- Python truthiness of an optional list (`if authors`). -/
def pyTruthyList (l : Option (List String)) : Bool :=
  match l with
  | none => false
  | some xs => !xs.isEmpty

namespace MetadataCache

/-- Row visibility filter used by every read:
`expires_at IS NULL OR expires_at > datetime('now')` (TEXT comparison). -/
def visible (r : MetaRow) (now : PyDateTime) : Bool :=
  match r.expiresAt with
  | none => true
  | some e => textLt (sqliteNowFormat now) e

/-- `MetadataCache.put`: upsert keyed by `doi.lower()` with
`expires_at = (datetime.now() + timedelta(days=ttl_days)).isoformat()`. -/
def put (rows : List MetaRow) (doi : String) (abstract : Option String)
    (source : String) (title : Option String) (authors : Option (List String))
    (citationCount : Option Int) (ttlDays : Nat) (now : PyDateTime) :
    List MetaRow :=
  let expiresAt := isoFormat (addDays now ttlDays)
  let authorsJson := if pyTruthyList authors then authors else none
  let row : MetaRow :=
    { doi := pyLower doi, abstract := abstract, title := title
      authorsJson := authorsJson, citationCount := citationCount
      source := source, expiresAt := some expiresAt }
  row :: rows.filter (fun r => !(r.doi == pyLower doi))

/-- `MetadataCache.get_abstract`: select the row with `doi = doi.lower()`
passing the expiry filter and return its (possibly NULL) `abstract`. -/
def get_abstract (rows : List MetaRow) (doi : String) (now : PyDateTime) :
    Option String :=
  match rows.find? (fun r => r.doi == pyLower doi && visible r now) with
  | some r => r.abstract
  | none => none

/-- Last-wins dictionary comprehension `{d.lower(): d for d in dois}`. -/
def doiMapGet (dois : List String) (k : String) : Option String :=
  ((dois.map (fun d => (pyLower d, d))).reverse.find? (fun p => p.1 == k)).map
    (fun p => p.2)

/-- `MetadataCache.get_batch`: rows whose key is among the normalized DOIs,
whose `abstract IS NOT NULL`, and which pass the expiry filter; the result
maps the original-case DOI to the abstract. -/
def get_batch (rows : List MetaRow) (dois : List String) (now : PyDateTime) :
    List (String × String) :=
  if dois.isEmpty then []
  else
    let normalized := dois.map (fun d => pyLower d)
    let selected := rows.filter
      (fun r => normalized.contains r.doi && r.abstract.isSome && visible r now)
    selected.map
      (fun r => ((doiMapGet dois r.doi).getD r.doi, r.abstract.getD ""))

end MetadataCache

/-! ## BrowserPool (`infrastructure/enrichment/browser_pool.py`)

The browser engine is modelled as an environment: each loop iteration of
`_fetch_single` either raises inside the `try` block or observes a loaded
page (its HTML and final URL) together with the outcome of a bypass attempt
(the return value of `_solve_cloudflare` and the content/URL re-read after
it).  The list of `AttemptStep`s has one entry per loop iteration, so its
length is `max_retries`. -/

/-- `FetchResult` dataclass. -/
structure FetchResult where
  url : String
  html : Option String
  finalUrl : Option String
  success : Bool
  error : Option String := none
deriving DecidableEq

def CLOUDFLARE_TITLE_INDICATORS : List String :=
  ["Just a moment...", "Checking your browser"]

def CLOUDFLARE_BODY_INDICATORS : List String :=
  ["Verify you are human",
   "Please wait while we verify your browser",
   "Enable JavaScript and cookies to continue"]

/-- `_is_cloudflare_challenge`: case-insensitive substring scan of the page
against the fixed marker lists. -/
def isCloudflareChallenge (html : String) : Bool :=
  if html = "" then false
  else
    let htmlLower := pyLower html
    CLOUDFLARE_TITLE_INDICATORS.any (fun ind => strContains htmlLower (pyLower ind)) ||
      CLOUDFLARE_BODY_INDICATORS.any (fun ind => strContains htmlLower (pyLower ind))

/-- What one iteration of the retry loop in `_fetch_single` observes. -/
inductive AttemptStep where
  /-- An exception escapes the `try` block (navigation/browser failure). -/
  | pageError (msg : String)
  /-- The page loads with content `html` at `finalUrl`; if a challenge is
  detected, `solved` is `_solve_cloudflare`'s return value and
  `postHtml`/`postUrl` are the content and URL re-read after the bypass. -/
  | loaded (html finalUrl : String) (solved : Bool) (postHtml postUrl : String)
deriving DecidableEq

namespace BrowserPool

/-- The retry loop of `_fetch_single`.  `rest = []` means the current
iteration is the last one (`attempt == max_retries - 1`). -/
def fetchSingleGo (url : String) : List AttemptStep → FetchResult
  | [] =>
    { url := url, html := none, finalUrl := none, success := false
      error := some "Max retries exceeded" }
  | step :: rest =>
    match step with
    | .pageError msg =>
      if rest.isEmpty then
        { url := url, html := none, finalUrl := none, success := false
          error := some msg }
      else fetchSingleGo url rest
    | .loaded html finalUrl solved postHtml postUrl =>
      if isCloudflareChallenge html then
        if solved && !isCloudflareChallenge postHtml then
          { url := url, html := some postHtml, finalUrl := some postUrl
            success := true, error := none }
        else
          let html2 := if solved then postHtml else html
          let finalUrl2 := if solved then postUrl else finalUrl
          if rest.isEmpty then
            { url := url, html := some html2, finalUrl := some finalUrl2
              success := false, error := some "Cloudflare bypass failed" }
          else fetchSingleGo url rest
      else
        { url := url, html := some html, finalUrl := some finalUrl
          success := true, error := none }

/-- `_fetch_single url` under a given sequence of per-iteration
observations (one `AttemptStep` per `range(max_retries)` iteration). -/
def fetchSingle (url : String) (attempts : List AttemptStep) : FetchResult :=
  fetchSingleGo url attempts

/-- The awaited value of one task of `fetch_pages`: either the task raised
(`asyncio.gather(..., return_exceptions=True)` hands back the exception) or
it ran `_fetch_single` and the environment supplied its attempt steps.  The
semaphore and the jitter sleep in `_fetch_with_semaphore` only affect
timing, not the value. -/
inductive TaskOutcome where
  | exn (msg : String)
  | ran (attempts : List AttemptStep)

/-- Run the task for position `i`, URL `u`. -/
def runTask (u : String) (t : TaskOutcome) : Except String FetchResult :=
  match t with
  | .exn msg => .error msg
  | .ran attempts => .ok (fetchSingle u attempts)

/-- `asyncio.gather` executed under an explicit completion schedule: tasks
complete in the order listed in `order`, and each completed task writes its
value into the slot of its own task index.  `gather` returns the slots in
task order. -/
def gatherExec (tasks : List α) (dflt : α) (order : List Nat) : List α :=
  order.foldl (fun acc i => acc.set i (tasks.getD i dflt))
    (List.replicate tasks.length dflt)

/-- `BrowserPool.fetch_pages`: build one task per URL, gather them under
completion schedule `order`, then convert exceptions to failed
`FetchResult`s by zipping with the input URL list.  `env i` is the
behaviour of the task at input position `i`. -/
def fetchPages (env : Nat → TaskOutcome) (order : List Nat)
    (urls : List String) : List FetchResult :=
  if urls.isEmpty then []
  else
    let tasks := urls.enum.map (fun p => runTask p.2 (env p.1))
    let results := gatherExec tasks (.error "") order
    (urls.zip results).map (fun p =>
      match p.2 with
      | .error e =>
        { url := p.1, html := none, finalUrl := none, success := false
          error := some e }
      | .ok r => r)

end BrowserPool

/-! ## AbstractEnricher (`pipeline/enrich.py`)

`CandidateWork` keeps the fields the enricher reads or writes; the record's
other fields (identifier, authors, url, …) never influence enrichment.
The three data tiers (`MetadataCache.get_batch` on the enricher's cache
instance, `_fetch_abstracts` via the Semantic Scholar client, and
`_fetch_with_scraper`) are oracles returning the dictionaries the Python
methods return; their internal cache writes do not feed back into this
run's control flow. -/

structure CandidateWork where
  title : String
  abstract : Option String
  doi : Option String
deriving DecidableEq

/-- Python truthiness of an optional string (`if c.abstract`): `None` and
the empty string are falsy. -/
def pyTruthyStr (s : Option String) : Bool :=
  match s with
  | none => false
  | some v => !(v == "")

/-- First-wins association-list lookup, the model of Python dict access
(the dictionaries returned by the tiers have unique keys). -/
def lookupVal (k : String) (m : List (String × String)) : Option String :=
  (m.find? (fun p => p.1 == k)).map (fun p => p.2)

structure EnrichmentStats where
  total_candidates : Nat
  with_abstract : Nat
  missing_abstracts : Nat
  skipped_no_doi : Nat
  cache_hits : Nat
  api_fetched : Nat
  scraper_fetched : Nat := 0
  enriched : Nat := 0
  failed : Nat := 0
deriving DecidableEq

/-- Inputs of one `AbstractEnricher.enrich` run that come from outside the
function body: configuration flags and the three data tiers. -/
structure EnrichEnv where
  /-- `settings.sources.semantic_scholar.enabled` -/
  enabled : Bool
  /-- `self.config.scraper.enabled` -/
  scraperEnabled : Bool
  /-- `self.llm is not None` -/
  hasLLM : Bool
  /-- `self.cache.get_batch(dois)` -/
  cacheBatch : List String → List (String × String)
  /-- `self._fetch_abstracts(dois)` -/
  apiBatch : List String → List (String × String)
  /-- `self._fetch_with_scraper(dois, needs_enrichment)` -/
  scraperRun : List String → List (String × String)

namespace AbstractEnricher

/-- The categorization loop of `enrich`: split candidates into
`with_abstract`, `needs_enrichment` and `no_doi`, preserving order. -/
def categorize : List CandidateWork →
    List CandidateWork × List CandidateWork × List CandidateWork
  | [] => ([], [], [])
  | c :: cs =>
    let (w, n, d) := categorize cs
    if pyTruthyStr c.abstract then (c :: w, n, d)
    else if pyTruthyStr c.doi then (w, c :: n, d)
    else (w, n, c :: d)

/-- `AbstractEnricher.enrich`. -/
def enrich (env : EnrichEnv) (candidates : List CandidateWork) :
    List CandidateWork × EnrichmentStats :=
  if !env.enabled then
    let withAbstract := candidates.countP (fun c => pyTruthyStr c.abstract)
    (candidates,
      { total_candidates := candidates.length, with_abstract := withAbstract
        missing_abstracts := candidates.length - withAbstract
        skipped_no_doi := 0, cache_hits := 0, api_fetched := 0
        scraper_fetched := 0, enriched := 0, failed := 0 })
  else
    let (w, n, d) := categorize candidates
    if n.isEmpty then
      (candidates,
        { total_candidates := candidates.length, with_abstract := w.length
          missing_abstracts := 0, skipped_no_doi := d.length
          cache_hits := 0, api_fetched := 0, scraper_fetched := 0
          enriched := 0, failed := 0 })
    else
      let doisToCheck := n.map (fun c => c.doi.getD "")
      let cached := env.cacheBatch doisToCheck
      let uncachedDois := doisToCheck.filter (fun doi => (lookupVal doi cached).isNone)
      let apiAbstracts := if uncachedDois.isEmpty then [] else env.apiBatch uncachedDois
      let stillMissingDois :=
        uncachedDois.filter (fun doi => (lookupVal doi apiAbstracts).isNone)
      let scraperAbstracts :=
        if !stillMissingDois.isEmpty && env.scraperEnabled && env.hasLLM then
          env.scraperRun stillMissingDois
        else []
      -- `all_abstracts = {**cached_abstracts, **api_abstracts, **scraper_abstracts}`:
      -- later tiers override earlier ones.
      let allAbstracts : String → Option String := fun k =>
        match lookupVal k scraperAbstracts with
        | some v => some v
        | none =>
          match lookupVal k apiAbstracts with
          | some v => some v
          | none => lookupVal k cached
      let enrichedCount := n.countP (fun c => (allAbstracts (c.doi.getD "")).isSome)
      let enrichedCandidates := candidates.map (fun c =>
        if !pyTruthyStr c.abstract && pyTruthyStr c.doi &&
            (allAbstracts (c.doi.getD "")).isSome then
          { c with abstract := allAbstracts (c.doi.getD "") }
        else c)
      (enrichedCandidates,
        { total_candidates := candidates.length, with_abstract := w.length
          missing_abstracts := n.length, skipped_no_doi := d.length
          cache_hits := cached.length, api_fetched := apiAbstracts.length
          scraper_fetched := scraperAbstracts.length
          enriched := enrichedCount, failed := n.length - enrichedCount })

end AbstractEnricher

/-! ## LLMAbstractExtractor (`infrastructure/enrichment/llm_extractor.py`) -/

/-- `LLMResponse` (`core/protocols.py`). -/
structure LLMResponse where
  content : String
  model : String
  tokensUsed : Nat
  cached : Bool := false
deriving DecidableEq

/-- Python `s.strip()` (ASCII-whitespace fragment), over the character list
so that it evaluates by kernel reduction. -/
def pyStrip (s : String) : String :=
  ⟨((s.data.dropWhile Char.isWhitespace).reverse.dropWhile
      Char.isWhitespace).reverse⟩

/-- `EXTRACT_PROMPT` up to the `format` hole that receives the cleaned
HTML (the template ends with the hole followed by a newline). -/
def EXTRACT_PROMPT_PRE : String :=
  "Extract the abstract from the following academic paper webpage HTML.\n\n" ++
  "Requirements:\n" ++
  "1. Return ONLY the plain text abstract, no HTML tags\n" ++
  "2. If there are multiple abstract paragraphs, merge them into one complete abstract\n" ++
  "3. Remove any header words like \"Abstract\", \"Summary\", etc.\n" ++
  "4. If you cannot find an abstract, return exactly \"NOT_FOUND\"\n" ++
  "5. Do not add any explanation or extra content, return only the abstract text\n\n" ++
  "HTML content (truncated):\n"

namespace LLMAbstractExtractor

/-- The prompt `extract` sends: `EXTRACT_PROMPT.format(html=cleaned)`, with
the title line prepended when a truthy title is given. -/
def buildPrompt (cleanedHtml : String) (title : Option String) : String :=
  let prompt := EXTRACT_PROMPT_PRE ++ cleanedHtml ++ "\n"
  match title with
  | some t => if t == "" then prompt else "Paper title: " ++ t ++ "\n\n" ++ prompt
  | none => prompt

/-- `LLMAbstractExtractor.extract`.

`preprocess` stands for `_preprocess_html`, a pure regex-based HTML cleanup
(section isolation, tag stripping, truncation) whose output only feeds the
prompt; the theorems below quantify over an arbitrary such function, so
nothing is assumed about it.  `llm prompt maxTokens temperature` is
`self.llm.complete(...)`: `.error` models a raised exception (caught by the
`except` clause), `.ok` a returned `LLMResponse`. -/
def extract (preprocess : String → String)
    (llm : String → Nat → ℚ → Except String LLMResponse)
    (maxTokens : Nat) (temperature : ℚ)
    (html : String) (title : Option String) : Option String :=
  if html == "" then none
  else
    let cleanedHtml := preprocess html
    let prompt := buildPrompt cleanedHtml title
    match llm prompt maxTokens temperature with
    | .error _ => none
    | .ok response =>
      let result := pyStrip response.content
      if strContains result "NOT_FOUND" || result.length < 50 then none
      else some result

end LLMAbstractExtractor

/-! ## KimiClient (`llm/kimi.py`)

`zotwatch/llm/retry.py` (the `with_retry` decorator applied to
`_complete_with_retry`) is not among the sources; following the spec
(§4.2), it retries the wrapped call with exponential backoff up to a
maximum attempt count, each attempt being a full round trip invoked with
the same arguments. -/

namespace KimiClient

def THINKING_MODEL_PREFIXES : List String := ["kimi-k2-thinking"]

def MIN_THINKING_TOKENS : Nat := 16000

/-- `KimiClient._is_thinking_model`. -/
def isThinkingModel (model : String) : Bool :=
  THINKING_MODEL_PREFIXES.any (fun p => strStarts model p)

/-- `use_model = model or self.default_model` (Python `or`: `None` and the
empty string fall back to the default). -/
def resolveModel (model : Option String) (defaultModel : String) : String :=
  match model with
  | none => defaultModel
  | some m => if m == "" then defaultModel else m

/-- The fields of the JSON body `_complete_with_retry` posts to
`/chat/completions`. -/
structure KimiRequest where
  model : String
  maxTokens : Nat
  temperature : ℚ
  prompt : String
deriving DecidableEq

/-- The parameter-adjustment block of `_complete_with_retry` (lines
101-127): resolve the model, then force `temperature = 1.0` and raise
`max_tokens` to at least `MIN_THINKING_TOKENS` for thinking models. -/
def dispatchRequest (defaultModel prompt : String) (model : Option String)
    (maxTokens : Nat) (temperature : ℚ) : KimiRequest :=
  let useModel := resolveModel model defaultModel
  if isThinkingModel useModel then
    { model := useModel
      maxTokens :=
        if maxTokens < MIN_THINKING_TOKENS then MIN_THINKING_TOKENS else maxTokens
      temperature := 1
      prompt := prompt }
  else
    { model := useModel, maxTokens := maxTokens, temperature := temperature
      prompt := prompt }

/-- Modelled from the spec: the retry loop of the missing `with_retry`
decorator around `_complete_with_retry`.  On each attempt the wrapped
function re-runs with the original arguments, so it rebuilds the dispatched
request from them; `http req i` is the round-trip outcome on attempt `i`.
Returns the final outcome together with the trace of dispatched requests,
one per attempt that ran. -/
def completeAttempts (http : KimiRequest → Nat → Except String LLMResponse)
    (defaultModel prompt : String) (model : Option String)
    (maxTokens : Nat) (temperature : ℚ) :
    Nat → Nat → Except String LLMResponse × List KimiRequest
  | _, 0 => (.error "retries exhausted", [])
  | i, n + 1 =>
    let req := dispatchRequest defaultModel prompt model maxTokens temperature
    match http req i with
    | .ok r => (.ok r, [req])
    | .error e =>
      if n = 0 then (.error e, [req])
      else
        let rest :=
          completeAttempts http defaultModel prompt model maxTokens temperature
            (i + 1) n
        (rest.1, req :: rest.2)

/-- `KimiClient.complete`: delegate to the retried completion. -/
def complete (http : KimiRequest → Nat → Except String LLMResponse)
    (defaultModel : String) (maxAttempts : Nat) (prompt : String)
    (model : Option String) (maxTokens : Nat) (temperature : ℚ) :
    Except String LLMResponse × List KimiRequest :=
  completeAttempts http defaultModel prompt model maxTokens temperature 0
    maxAttempts

end KimiClient

/-! ## Helper lemmas -/

theorem fetchSingleGo_url (url : String) :
    ∀ attempts, (BrowserPool.fetchSingleGo url attempts).url = url := by
  intro attempts
  induction attempts with
  | nil => rfl
  | cons step rest ih =>
    cases step <;> simp only [BrowserPool.fetchSingleGo] <;>
      (repeat' split) <;> simp [ih]

theorem challenge_false_markers (h : String)
    (hch : isCloudflareChallenge h = false) :
    ∀ ind ∈ CLOUDFLARE_TITLE_INDICATORS ++ CLOUDFLARE_BODY_INDICATORS,
      strContains (pyLower h) (pyLower ind) = false := by
  intro ind hind
  unfold isCloudflareChallenge at hch
  by_cases hh : h = ""
  · subst hh
    simp [CLOUDFLARE_TITLE_INDICATORS, CLOUDFLARE_BODY_INDICATORS] at hind
    rcases hind with rfl | rfl | rfl | rfl | rfl <;> decide
  · simp [hh] at hch
    rcases hch with ⟨h1, h2⟩
    rcases List.mem_append.1 hind with hm | hm
    · exact h1 ind hm
    · exact h2 ind hm

theorem foldl_set_length {α : Type} (tasks : List α) (dflt : α) :
    ∀ (order : List Nat) (acc : List α),
      (order.foldl (fun acc i => acc.set i (tasks.getD i dflt)) acc).length =
        acc.length := by
  intro order
  induction order with
  | nil => intro acc; rfl
  | cons j rest ih => intro acc; rw [List.foldl_cons, ih, List.length_set]

theorem foldl_set_get_of_notMem {α : Type} (tasks : List α) (dflt : α) :
    ∀ (order : List Nat) (acc : List α) (i : Nat), i ∉ order →
      (order.foldl (fun acc i => acc.set i (tasks.getD i dflt)) acc)[i]? =
        acc[i]? := by
  intro order
  induction order with
  | nil => intro acc i _; rfl
  | cons j rest ih =>
    intro acc i hi
    rw [List.foldl_cons, ih _ _ (fun hm => hi (List.mem_cons_of_mem _ hm)),
      List.getElem?_set_ne (fun hm => hi (by rw [hm]; exact List.mem_cons_self _ _))]

theorem foldl_set_get_of_mem {α : Type} (tasks : List α) (dflt : α) :
    ∀ (order : List Nat) (acc : List α) (i : Nat),
      i ∈ order → i < acc.length → acc.length = tasks.length →
      (order.foldl (fun acc i => acc.set i (tasks.getD i dflt)) acc)[i]? =
        some (tasks.getD i dflt) := by
  intro order
  induction order with
  | nil => intro acc i hmem; exact absurd hmem (List.not_mem_nil i)
  | cons j rest ih =>
    intro acc i hmem hlt hlen
    rw [List.foldl_cons]
    by_cases hr : i ∈ rest
    · exact ih _ _ hr (by rw [List.length_set]; exact hlt)
        (by rw [List.length_set]; exact hlen)
    · have hij : i = j := by
        rcases List.mem_cons.1 hmem with hm | hm
        · exact hm
        · exact absurd hm hr
      subst hij
      rw [foldl_set_get_of_notMem tasks dflt rest _ i hr,
        List.getElem?_set_self hlt]

theorem gatherExec_length {α : Type} (tasks : List α) (dflt : α)
    (order : List Nat) :
    (BrowserPool.gatherExec tasks dflt order).length = tasks.length := by
  unfold BrowserPool.gatherExec
  rw [foldl_set_length, List.length_replicate]

theorem gatherExec_getElem {α : Type} (tasks : List α) (dflt : α)
    (order : List Nat) (i : Nat) (hmem : i ∈ order) (hi : i < tasks.length) :
    (BrowserPool.gatherExec tasks dflt order)[i]? = tasks[i]? := by
  unfold BrowserPool.gatherExec
  rw [foldl_set_get_of_mem tasks dflt order _ i hmem
    (by rw [List.length_replicate]; exact hi) (List.length_replicate _ _)]
  rw [List.getD_eq_getElem?_getD, List.getElem?_eq_getElem hi]
  rfl

theorem fetchPages_getElem (env : Nat → BrowserPool.TaskOutcome)
    (order : List Nat) (urls : List String) (i : Nat) (hi : i < urls.length)
    (hmem : i ∈ order) :
    (BrowserPool.fetchPages env order urls)[i]? =
      some (match BrowserPool.runTask (urls.get ⟨i, hi⟩) (env i) with
        | .error e =>
          { url := urls.get ⟨i, hi⟩, html := none, finalUrl := none,
            success := false, error := some e }
        | .ok r => r) := by
  have hne : urls.isEmpty = false := by
    cases urls with
    | nil => simp at hi
    | cons a l => rfl
  unfold BrowserPool.fetchPages
  rw [hne]
  simp only [Bool.false_eq_true, if_false, List.getElem?_map]
  have htask : (urls.enum.map
      (fun p => BrowserPool.runTask p.2 (env p.1)))[i]? =
      some (BrowserPool.runTask (urls.get ⟨i, hi⟩) (env i)) := by
    rw [List.getElem?_map, List.getElem?_enum,
      List.getElem?_eq_getElem hi]
    rfl
  have hzip : (urls.zip (BrowserPool.gatherExec
      (urls.enum.map (fun p => BrowserPool.runTask p.2 (env p.1)))
      (.error "") order))[i]? =
      some (urls.get ⟨i, hi⟩,
        BrowserPool.runTask (urls.get ⟨i, hi⟩) (env i)) := by
    rw [List.getElem?_zip_eq_some]
    refine ⟨by rw [List.getElem?_eq_getElem hi]; rfl, ?_⟩
    rw [gatherExec_getElem _ _ _ _ hmem (by simpa using hi)]
    exact htask
  rw [hzip]
  rfl

theorem categorize_length (candidates : List CandidateWork) :
    (AbstractEnricher.categorize candidates).1.length +
      (AbstractEnricher.categorize candidates).2.1.length +
      (AbstractEnricher.categorize candidates).2.2.length =
      candidates.length := by
  induction candidates with
  | nil => rfl
  | cons c cs ih =>
    cases hcat : AbstractEnricher.categorize cs with
    | mk w rest =>
      cases rest with
      | mk n d =>
        rw [hcat] at ih
        simp only at ih
        unfold AbstractEnricher.categorize
        rw [hcat]
        by_cases h1 : pyTruthyStr c.abstract <;>
          by_cases h2 : pyTruthyStr c.doi <;> simp [h1, h2] <;> omega

theorem completeAttempts_trace
    (http : KimiClient.KimiRequest → Nat → Except String LLMResponse)
    (defaultModel prompt : String) (model : Option String)
    (maxTokens : Nat) (temperature : ℚ) :
    ∀ (n i : Nat) req,
      req ∈ (KimiClient.completeAttempts http defaultModel prompt model
        maxTokens temperature i n).2 →
      req = KimiClient.dispatchRequest defaultModel prompt model maxTokens
        temperature := by
  intro n
  induction n with
  | zero => intro i req h; simp [KimiClient.completeAttempts] at h
  | succ k ih =>
    intro i req h
    unfold KimiClient.completeAttempts at h
    cases hcall : http (KimiClient.dispatchRequest defaultModel prompt model
        maxTokens temperature) i with
    | ok r =>
      simp only [hcall] at h
      simpa using h
    | error e =>
      simp only [hcall] at h
      by_cases hk : k = 0
      · subst hk
        simpa using h
      · simp only [hk, if_false] at h
        rcases List.mem_cons.1 h with rfl | hm
        · rfl
        · exact ih (i + 1) req hm

/-! ## Claim theorems -/

/-- Claim C1 (refuted as stated; the code is the slip).  `put` then
`get_abstract` one-and-a-half days after a 1-day TTL: the TTL has elapsed
(first conjunct, on the actual instants), yet `get_abstract` still returns
the stored value (last conjunct).  Cause: the stored `expires_at` is
rendered by Python `isoformat()` with a `'T'` separator while the read path
compares it as TEXT against SQLite `datetime('now')`, which uses a space
separator; since `'T' > ' '`, any expiry timestamp compares greater than
any same-day clock reading, so rows stay visible until the date part of the
clock passes the expiry date (middle conjuncts exhibit the two strings and
the comparison). -/
theorem get_abstract_visible_after_ttl_elapsed :
    dtLt (addDays ⟨2026, 10, 12, 0, 0, 0, 0⟩ 1) ⟨2026, 10, 13, 12, 0, 0, 0⟩ =
      true ∧
    isoFormat (addDays ⟨2026, 10, 12, 0, 0, 0, 0⟩ 1) = "2026-10-13T00:00:00" ∧
    sqliteNowFormat ⟨2026, 10, 13, 12, 0, 0, 0⟩ = "2026-10-13 12:00:00" ∧
    textLt "2026-10-13 12:00:00" "2026-10-13T00:00:00" = true ∧
    MetadataCache.get_abstract
      (MetadataCache.put [] "10.1234/x" (some "A") "s" none none none 1
        ⟨2026, 10, 12, 0, 0, 0, 0⟩)
      "10.1234/x" ⟨2026, 10, 13, 12, 0, 0, 0⟩ = some "A" :=
  ⟨by decide, by decide, by decide, by decide, by decide⟩

/-- Claim C2: whenever the completion schedule eventually completes every
task (any interleaving), `fetch_pages` returns one `FetchResult` per input
URL whose `url` fields are exactly the input URLs in input order. -/
theorem fetch_pages_preserves_input_order
    (env : Nat → BrowserPool.TaskOutcome) (order : List Nat)
    (urls : List String)
    (horder : ∀ i, i < urls.length → i ∈ order) :
    (BrowserPool.fetchPages env order urls).length = urls.length ∧
    (BrowserPool.fetchPages env order urls).map FetchResult.url = urls := by
  have hlen : (BrowserPool.fetchPages env order urls).length = urls.length := by
    unfold BrowserPool.fetchPages
    by_cases he : urls.isEmpty = true
    · rw [he]
      simp [List.isEmpty_iff.1 he]
    · rw [eq_false_of_ne_true he]
      simp [List.length_zip, gatherExec_length, Nat.min_self]
  refine ⟨hlen, ?_⟩
  apply List.ext_getElem?
  intro i
  rw [List.getElem?_map]
  by_cases hi : i < urls.length
  · rw [fetchPages_getElem env order urls i hi (horder i hi),
      List.getElem?_eq_getElem hi]
    cases henv : env i with
    | exn msg => simp [BrowserPool.runTask, henv]
    | ran att =>
      simp [BrowserPool.runTask, henv, BrowserPool.fetchSingle,
        fetchSingleGo_url]
  · have h1 : urls[i]? = none := List.getElem?_eq_none (by omega)
    have h2 : (BrowserPool.fetchPages env order urls)[i]? = none :=
      List.getElem?_eq_none (by rw [hlen]; omega)
    rw [h1, h2]
    rfl

/-- Witness for C2 at a concrete input (completion order reversed from
input order). -/
theorem fetch_pages_preserves_input_order_witness :
    (BrowserPool.fetchPages
      (fun i => if i = 0 then .ran [.loaded "page" "f" false "" ""]
        else .exn "boom") [1, 0] ["a", "b"]).map FetchResult.url =
      ["a", "b"] :=
  (fetch_pages_preserves_input_order _ [1, 0] ["a", "b"] (by decide)).2

/-- Claim C3: if the task for the URL at position `i` raises `msg`, the
batch result at position `i` is `FetchResult` with `success = false` and
`error = msg` (first conjunct; in particular the exception is converted,
never propagated — `fetch_pages` is total); and every position's result
depends only on that position's own task behaviour, so the other URLs'
results are unaffected (second conjunct, for any two environments agreeing
at a position and any two complete schedules). -/
theorem fetch_pages_contains_task_exceptions
    (env env' : Nat → BrowserPool.TaskOutcome)
    (order order' : List Nat) (urls : List String) (i : Nat) (msg : String)
    (horder : ∀ j, j < urls.length → j ∈ order)
    (hordtwo : ∀ j, j < urls.length → j ∈ order')
    (hi : i < urls.length) (henv : env i = .exn msg) :
    (BrowserPool.fetchPages env order urls)[i]? =
      some { url := urls.get ⟨i, hi⟩, html := none, finalUrl := none,
             success := false, error := some msg } ∧
    ∀ j, j < urls.length → env' j = env j →
      (BrowserPool.fetchPages env' order' urls)[j]? =
        (BrowserPool.fetchPages env order urls)[j]? := by
  constructor
  · rw [fetchPages_getElem env order urls i hi (horder i hi)]
    simp [BrowserPool.runTask, henv]
  · intro j hj hagree
    rw [fetchPages_getElem env' order' urls j hj (hordtwo j hj),
      fetchPages_getElem env order urls j hj (horder j hj), hagree]

/-- Witness for C3 at a concrete input: position 0 raises `"boom"`, and the
result at position 0 is unchanged when the other position's behaviour and
the schedule change. -/
theorem fetch_pages_contains_task_exceptions_witness :
    (BrowserPool.fetchPages
      (fun i => if i = 0 then .exn "boom" else .ran []) [0, 1]
      ["a", "b"])[0]? =
      some { url := "a", html := none, finalUrl := none, success := false,
             error := some "boom" } ∧
    (BrowserPool.fetchPages
        (fun i => if i = 0 then .exn "boom" else .exn "other") [1, 0]
        ["a", "b"])[0]? =
      (BrowserPool.fetchPages
        (fun i => if i = 0 then .exn "boom" else .ran []) [0, 1]
        ["a", "b"])[0]? :=
  ⟨(fetch_pages_contains_task_exceptions
      (fun i => if i = 0 then .exn "boom" else .ran [])
      (fun i => if i = 0 then .exn "boom" else .exn "other") [0, 1] [1, 0]
      ["a", "b"] 0 "boom" (by decide) (by decide) (by decide) rfl).1,
   (fetch_pages_contains_task_exceptions
      (fun i => if i = 0 then .exn "boom" else .ran [])
      (fun i => if i = 0 then .exn "boom" else .exn "other") [0, 1] [1, 0]
      ["a", "b"] 0 "boom" (by decide) (by decide) (by decide) rfl).2 0
      (by decide) rfl⟩

/-- Claim C5: (first conjunct) every `_fetch_single` result with
`success = true` carries HTML in which no Cloudflare challenge marker
occurs case-insensitively; (second conjunct) a bypass attempt after which
markers are still present (`_solve_cloudflare` returned false, or the
re-read content still scans as a challenge) re-enters the retry loop on a
non-final attempt instead of returning success. -/
theorem fetch_single_no_false_success (url : String) :
    (∀ attempts, (BrowserPool.fetchSingle url attempts).success = true →
      ∃ h, (BrowserPool.fetchSingle url attempts).html = some h ∧
        ∀ ind ∈ CLOUDFLARE_TITLE_INDICATORS ++ CLOUDFLARE_BODY_INDICATORS,
          strContains (pyLower h) (pyLower ind) = false) ∧
    (∀ html finalUrl solved postHtml postUrl rest,
      isCloudflareChallenge html = true →
      (solved = false ∨ isCloudflareChallenge postHtml = true) →
      rest ≠ [] →
      BrowserPool.fetchSingle url
        (.loaded html finalUrl solved postHtml postUrl :: rest) =
        BrowserPool.fetchSingle url rest) := by
  constructor
  · intro attempts
    induction attempts with
    | nil =>
      intro hs
      simp [BrowserPool.fetchSingle, BrowserPool.fetchSingleGo] at hs
    | cons step rest ih =>
      intro hs
      cases step with
      | pageError msg =>
        by_cases hr : rest.isEmpty
        · simp [BrowserPool.fetchSingle, BrowserPool.fetchSingleGo, hr] at hs
        · have hgo : BrowserPool.fetchSingle url (.pageError msg :: rest) =
              BrowserPool.fetchSingle url rest := by
            simp [BrowserPool.fetchSingle, BrowserPool.fetchSingleGo, hr]
          rw [hgo] at hs ⊢
          exact ih hs
      | loaded html finalUrl solved postHtml postUrl =>
        by_cases h1 : isCloudflareChallenge html = true
        · by_cases h2 : (solved && !isCloudflareChallenge postHtml) = true
          · have hres : BrowserPool.fetchSingle url
                (.loaded html finalUrl solved postHtml postUrl :: rest) =
                { url := url, html := some postHtml,
                  finalUrl := some postUrl, success := true,
                  error := none } := by
              simp [BrowserPool.fetchSingle, BrowserPool.fetchSingleGo, h1, h2]
            refine ⟨postHtml, by rw [hres], challenge_false_markers _ ?_⟩
            have h2' : solved = true ∧ isCloudflareChallenge postHtml = false := by
              simpa using h2
            exact h2'.2
          · by_cases hr : rest.isEmpty
            · exfalso
              revert hs
              simp [BrowserPool.fetchSingle, BrowserPool.fetchSingleGo, h1,
                h2, hr]
            · have hgo : BrowserPool.fetchSingle url
                  (.loaded html finalUrl solved postHtml postUrl :: rest) =
                  BrowserPool.fetchSingle url rest := by
                simp [BrowserPool.fetchSingle, BrowserPool.fetchSingleGo, h1,
                  h2, hr]
              rw [hgo] at hs ⊢
              exact ih hs
        · have hres : BrowserPool.fetchSingle url
              (.loaded html finalUrl solved postHtml postUrl :: rest) =
              { url := url, html := some html, finalUrl := some finalUrl,
                success := true, error := none } := by
            simp [BrowserPool.fetchSingle, BrowserPool.fetchSingleGo, h1]
          exact ⟨html, by rw [hres],
            challenge_false_markers _ (Bool.eq_false_iff.2 h1)⟩
  · intro html finalUrl solved postHtml postUrl rest hch hfail hrest
    have h2 : (solved && !isCloudflareChallenge postHtml) = false := by
      rcases hfail with rfl | hpost
      · rfl
      · simp [hpost]
    have hr : rest.isEmpty = false := by
      cases rest with
      | nil => exact absurd rfl hrest
      | cons a l => rfl
    simp [BrowserPool.fetchSingle, BrowserPool.fetchSingleGo, hch, h2, hr]

/-- Witness for C5 at concrete inputs: a clean page yields a success free
of markers, and a challenge page with a failed bypass retries. -/
theorem fetch_single_no_false_success_witness :
    (∃ h, (BrowserPool.fetchSingle "u"
        [.loaded "All clear" "f" false "p" "q"]).html = some h ∧
      ∀ ind ∈ CLOUDFLARE_TITLE_INDICATORS ++ CLOUDFLARE_BODY_INDICATORS,
        strContains (pyLower h) (pyLower ind) = false) ∧
    BrowserPool.fetchSingle "u"
        [.loaded "Just a moment..." "f" false "p" "q", .pageError "e"] =
      BrowserPool.fetchSingle "u" [.pageError "e"] :=
  ⟨(fetch_single_no_false_success "u").1
      [.loaded "All clear" "f" false "p" "q"] (by decide),
   (fetch_single_no_false_success "u").2 "Just a moment..." "f" false "p" "q"
     [.pageError "e"] (by decide) (Or.inl rfl) (by decide)⟩

/-- Claim C4: on every return path of `enrich` (disabled, nothing to
enrich, full path) the returned statistics satisfy
`with_abstract + missing_abstracts + skipped_no_doi = total_candidates` and
`enriched ≤ missing_abstracts`. -/
theorem enrich_stats_balance_invariant (env : EnrichEnv)
    (candidates : List CandidateWork) :
    (AbstractEnricher.enrich env candidates).2.with_abstract +
        (AbstractEnricher.enrich env candidates).2.missing_abstracts +
        (AbstractEnricher.enrich env candidates).2.skipped_no_doi =
      (AbstractEnricher.enrich env candidates).2.total_candidates ∧
    (AbstractEnricher.enrich env candidates).2.enriched ≤
      (AbstractEnricher.enrich env candidates).2.missing_abstracts := by
  unfold AbstractEnricher.enrich
  by_cases he : env.enabled
  case neg =>
    simp [he]
    have hcount := List.countP_le_length
      (l := candidates) (p := fun c => pyTruthyStr c.abstract)
    omega
  case pos =>
    have hlen := categorize_length candidates
    cases hcat : AbstractEnricher.categorize candidates with
    | mk w rest =>
      cases rest with
      | mk n d =>
        rw [hcat] at hlen
        simp only at hlen
        by_cases hn : n.isEmpty
        · have hn0 : n.length = 0 := by
            cases n with
            | nil => rfl
            | cons a l => simp at hn
          simp [he, hcat, hn]
          omega
        · simp [he, hcat, hn]
          constructor
          · omega
          · exact List.countP_le_length _

/-- Claim C7: with the enrichment source disabled in configuration,
`enrich` returns the input candidate list unmodified and statistics showing
that nothing was attempted (`cache_hits`, `api_fetched`, `scraper_fetched`,
`enriched`, `failed` all zero); as a total Lean function it raises
nothing. -/
theorem enrich_disabled_returns_unchanged (env : EnrichEnv)
    (candidates : List CandidateWork) (hdis : env.enabled = false) :
    (AbstractEnricher.enrich env candidates).1 = candidates ∧
    (AbstractEnricher.enrich env candidates).2.cache_hits = 0 ∧
    (AbstractEnricher.enrich env candidates).2.api_fetched = 0 ∧
    (AbstractEnricher.enrich env candidates).2.scraper_fetched = 0 ∧
    (AbstractEnricher.enrich env candidates).2.enriched = 0 ∧
    (AbstractEnricher.enrich env candidates).2.failed = 0 := by
  unfold AbstractEnricher.enrich
  simp [hdis]

/-- Witness for C7 at a concrete disabled configuration and candidate. -/
theorem enrich_disabled_returns_unchanged_witness :
    (AbstractEnricher.enrich
        ⟨false, true, true, fun _ => [], fun _ => [], fun _ => []⟩
        [⟨"t", none, some "10.1/x"⟩]).1 = [⟨"t", none, some "10.1/x"⟩] ∧
    (AbstractEnricher.enrich
        ⟨false, true, true, fun _ => [], fun _ => [], fun _ => []⟩
        [⟨"t", none, some "10.1/x"⟩]).2.cache_hits = 0 ∧
    (AbstractEnricher.enrich
        ⟨false, true, true, fun _ => [], fun _ => [], fun _ => []⟩
        [⟨"t", none, some "10.1/x"⟩]).2.api_fetched = 0 ∧
    (AbstractEnricher.enrich
        ⟨false, true, true, fun _ => [], fun _ => [], fun _ => []⟩
        [⟨"t", none, some "10.1/x"⟩]).2.scraper_fetched = 0 ∧
    (AbstractEnricher.enrich
        ⟨false, true, true, fun _ => [], fun _ => [], fun _ => []⟩
        [⟨"t", none, some "10.1/x"⟩]).2.enriched = 0 ∧
    (AbstractEnricher.enrich
        ⟨false, true, true, fun _ => [], fun _ => [], fun _ => []⟩
        [⟨"t", none, some "10.1/x"⟩]).2.failed = 0 :=
  enrich_disabled_returns_unchanged
    ⟨false, true, true, fun _ => [], fun _ => [], fun _ => []⟩
    [⟨"t", none, some "10.1/x"⟩] rfl

/-- Claim C6: `extract` returns `none` — and, being a total Lean function,
never raises — whenever every reply the provider could give for the sent
prompt either contains the `NOT_FOUND` sentinel, or is (after stripping)
shorter than the 50-character threshold, or is an exception (`.error`,
which the hypothesis does not even need to mention: the `.error` branch
returns `none` unconditionally). -/
theorem llm_extract_rejects_and_never_raises (preprocess : String → String)
    (llm : String → Nat → ℚ → Except String LLMResponse)
    (maxTokens : Nat) (temperature : ℚ) (html : String)
    (title : Option String)
    (hllm : ∀ p r, llm p maxTokens temperature = .ok r →
      strContains (pyStrip r.content) "NOT_FOUND" = true ∨
        (pyStrip r.content).length < 50) :
    LLMAbstractExtractor.extract preprocess llm maxTokens temperature html
      title = none := by
  unfold LLMAbstractExtractor.extract
  by_cases hh : html == ""
  · simp [hh]
  · rw [eq_false_of_ne_true hh]
    simp only [Bool.false_eq_true, if_false]
    cases hcall : llm (LLMAbstractExtractor.buildPrompt (preprocess html)
        title) maxTokens temperature with
    | error e => rfl
    | ok r =>
      rcases hllm _ r hcall with hnf | hshort
      · simp [hnf]
      · simp [hshort]

/-- Witness for C6 at a concrete input whose provider raises on every
call. -/
theorem llm_extract_rejects_and_never_raises_witness :
    LLMAbstractExtractor.extract id (fun _ _ _ => .error "http error") 1024
      (1/10) "<html>x</html>" none = none :=
  llm_extract_rejects_and_never_raises id (fun _ _ _ => .error "http error")
    1024 (1/10) "<html>x</html>" none (fun _ _ h => nomatch h)

/-- Claim C8: the request `_complete_with_retry` dispatches is the pure
adjustment of the requested parameters — for a thinking model the
temperature is forced to 1.0 and `max_tokens` becomes
`max(requested, 16000)`; otherwise the resolved model, `max_tokens` and
`temperature` pass through unchanged — and (third conjunct) every attempt
of the retried call dispatches exactly that adjusted request. -/
theorem kimi_thinking_param_adjustment (defaultModel prompt : String)
    (model : Option String) (maxTokens : Nat) (temperature : ℚ)
    (http : KimiClient.KimiRequest → Nat → Except String LLMResponse)
    (maxAttempts : Nat) :
    (KimiClient.isThinkingModel (KimiClient.resolveModel model defaultModel) =
        true →
      KimiClient.dispatchRequest defaultModel prompt model maxTokens
          temperature =
        { model := KimiClient.resolveModel model defaultModel,
          maxTokens := max maxTokens 16000, temperature := 1,
          prompt := prompt }) ∧
    (KimiClient.isThinkingModel (KimiClient.resolveModel model defaultModel) =
        false →
      KimiClient.dispatchRequest defaultModel prompt model maxTokens
          temperature =
        { model := KimiClient.resolveModel model defaultModel,
          maxTokens := maxTokens, temperature := temperature,
          prompt := prompt }) ∧
    (∀ req ∈ (KimiClient.complete http defaultModel maxAttempts prompt model
        maxTokens temperature).2,
      req = KimiClient.dispatchRequest defaultModel prompt model maxTokens
        temperature) := by
  refine ⟨?_, ?_, ?_⟩
  · intro hthink
    unfold KimiClient.dispatchRequest
    simp only [hthink, if_true]
    congr 1
    unfold KimiClient.MIN_THINKING_TOKENS
    split <;> omega
  · intro hthink
    unfold KimiClient.dispatchRequest
    simp [hthink]
  · intro req hm
    exact completeAttempts_trace http defaultModel prompt model maxTokens
      temperature maxAttempts 0 req hm

/-- Witness for C8 at a thinking model and a standard model. -/
theorem kimi_thinking_param_adjustment_witness :
    KimiClient.dispatchRequest "kimi-k2-thinking-turbo" "p" none 1024
        (3/10) =
      { model := "kimi-k2-thinking-turbo", maxTokens := max 1024 16000,
        temperature := 1, prompt := "p" } ∧
    KimiClient.dispatchRequest "m" "p" (some "kimi-k2-turbo-preview") 1024
        (3/10) =
      { model := "kimi-k2-turbo-preview", maxTokens := 1024,
        temperature := 3/10, prompt := "p" } :=
  ⟨(kimi_thinking_param_adjustment "kimi-k2-thinking-turbo" "p" none 1024
      (3/10) (fun _ _ => .error "") 3).1 (by decide),
   (kimi_thinking_param_adjustment "m" "p" (some "kimi-k2-turbo-preview")
      1024 (3/10) (fun _ _ => .error "") 3).2.1 (by decide)⟩

/-- Claim C9: after `put d v src`, `get_abstract d'` returns `v` for every
case variant `d'` of `d` (same lower-casing), read while the stored row is
still visible to the expiry filter — both paths lower-case the key, so case
variance never causes a miss. -/
theorem cache_put_get_case_insensitive (rows : List MetaRow)
    (d d' v src : String) (title : Option String)
    (authors : Option (List String)) (cc : Option Int) (ttl : Nat)
    (t tq : PyDateTime)
    (hcase : pyLower d' = pyLower d)
    (hvis : textLt (sqliteNowFormat tq) (isoFormat (addDays t ttl)) = true) :
    MetadataCache.get_abstract
      (MetadataCache.put rows d (some v) src title authors cc ttl t) d' tq =
      some v := by
  unfold MetadataCache.get_abstract MetadataCache.put
  simp [List.find?, hcase, MetadataCache.visible, hvis]

set_option maxRecDepth 4000 in
/-- Witness for C9: write under mixed case, read back under lower case at
the write instant. -/
theorem cache_put_get_case_insensitive_witness :
    MetadataCache.get_abstract
      (MetadataCache.put [] "10.1/AbC" (some "A") "s" none none none 30
        ⟨2026, 1, 1, 0, 0, 0, 0⟩)
      "10.1/abc" ⟨2026, 1, 1, 0, 0, 0, 0⟩ = some "A" :=
  cache_put_get_case_insensitive [] "10.1/AbC" "10.1/abc" "A" "s" none none
    none 30 ⟨2026, 1, 1, 0, 0, 0, 0⟩ ⟨2026, 1, 1, 0, 0, 0, 0⟩ (by decide)
    (by decide)

/-- Claim C10: after `put doi None src` stores a row whose `abstract`
column is NULL, `get_batch [doi]` returns the empty map at any read time —
the batch query's `abstract IS NOT NULL` filter hides cached negative
results. -/
theorem get_batch_omits_null_abstract_rows (rows : List MetaRow)
    (d src : String) (title : Option String) (authors : Option (List String))
    (cc : Option Int) (ttl : Nat) (t tq : PyDateTime) :
    MetadataCache.get_batch
      (MetadataCache.put rows d none src title authors cc ttl t) [d] tq =
      [] := by
  unfold MetadataCache.get_batch MetadataCache.put
  simp [List.filter_cons, List.filter_filter]
  intro r hr h1 h2
  simp_all
